import Mathlib

/-!
Verification development for the twitter-scraper API service.

The definitions below are a shallow embedding of `src/api/main.py`:
the session-bootstrap and session-gate logic, and the record-normalization
pipeline of the `search_tweets` endpoint (date parsing and filtering,
canonical tweet-URL construction, and media-variant selection).
Python optional attributes become `Option` fields; Python truthiness of
optional strings is made explicit; the provider (twikit) is an opaque
collaborator whose possible outcomes are enumerated as inductive types.
-/

namespace TwitterScraper

/-! ## Calendar dates (`datetime.date`) -/

/-- A calendar date, compared lexicographically like Python `datetime.date`. -/
structure Date where
  year : Nat
  month : Nat
  day : Nat
deriving DecidableEq, Repr

/-- Python `date` strict comparison `a < b` (lexicographic on year, month, day). -/
def Date.before (a b : Date) : Bool :=
  decide (a.year < b.year ∨ (a.year = b.year ∧
    (a.month < b.month ∨ (a.month = b.month ∧ a.day < b.day))))

/-- Python truthiness of an optional string: `None` and `""` are falsy. -/
def strTruthy : Option String → Bool
  | none => false
  | some s => decide (s ≠ "")

/-! ## Raw (provider-side) record model -/

/-- A JSON value read where an integer bitrate is expected: either `int(x)`
succeeds with `n`, or it raises `ValueError`/`TypeError`. -/
inductive PyInt where
  | parsed (n : Int)
  | unparsable
deriving DecidableEq, Repr

/-- One entry of `video_info['variants']` (a JSON object). -/
structure Variant where
  content_type : Option String
  bitrate : Option PyInt
  url : Option String
deriving DecidableEq, Repr

/-- `video_info` dict: only its `variants` key is read (default `[]`);
a list entry that is not a dict is modelled as `none`. -/
structure VideoInfo where
  variants : List (Option Variant)
deriving DecidableEq, Repr

/-- One entry of a media list. -/
structure MediaItem where
  type : Option String
  media_url_https : Option String
  video_info : Option VideoInfo
deriving DecidableEq, Repr

/-- The raw author object attached to a tweet. -/
structure RawUser where
  id : Option String
  name : Option String
  screen_name : Option String
deriving DecidableEq, Repr

/-- The raw `created_at` attribute: either already a `datetime` object
(whose calendar date and string form are carried), or a string that still
has to be parsed with `strptime`. -/
inductive CreatedAt where
  | dtObj (d : Date) (reprStr : String)
  | strVal (s : String)
deriving DecidableEq, Repr

/-- A raw tweet record; `extended_entities` carries the `media` list of
that dict when the attribute is present and is a dict. -/
structure RawTweet where
  id : Option String
  text : Option String
  created_at : Option CreatedAt
  user : Option RawUser
  extended_entities : Option (List MediaItem)
  media : List MediaItem
deriving DecidableEq, Repr

/-! ## Output schema -/

structure TweetUser where
  id : Option String
  name : Option String
  screen_name : Option String
deriving DecidableEq, Repr

structure TweetData where
  id : Option String
  text : Option String
  created_at : Option String
  user : Option TweetUser
  tweet_url : Option String
  media_urls : List String
deriving DecidableEq, Repr

/-! ## Media-variant selection (`search_tweets` lines 388-430) -/

/-- `int(variant.get('bitrate', 0))` with `ValueError`/`TypeError` mapped
to `0`: an absent bitrate defaults to `0`, an unparsable one becomes `0`. -/
def pyIntOfBitrate : Option PyInt → Int
  | none => 0
  | some (.parsed n) => n
  | some .unparsable => 0

/-- One iteration of the variant loop, carrying `(best_url, max_bitrate)`.
Non-dict entries and non-MP4 variants are skipped; an MP4 variant updates
the pair exactly when its url is truthy and its bitrate is `>=` the
running maximum. -/
def variantStep (acc : Option String × Int) (entry : Option Variant) :
    Option String × Int :=
  match entry with
  | none => acc
  | some v =>
    if v.content_type = some "video/mp4" then
      let currentBitrate : Int := pyIntOfBitrate v.bitrate
      if strTruthy v.url = true ∧ acc.2 ≤ currentBitrate then
        (v.url, currentBitrate)
      else acc
    else acc

/-- The variant loop: start at `(None, -1)`, fold, then append `best_url`
only when it is a truthy string. -/
def bestVariantUrl (variants : List (Option Variant)) : Option String :=
  match (variants.foldl variantStep (none, -1)).1 with
  | some u => if u ≠ "" then some u else none
  | none => none

/-- Processing of one media item: photos and animated gifs contribute their
secure URL, videos contribute the best MP4 variant URL, anything else
contributes nothing. -/
def mediaItemUrls (m : MediaItem) : List String :=
  if m.type = some "photo" ∨ m.type = some "animated_gif" then
    match m.media_url_https with
    | some u => if u ≠ "" then [u] else []
    | none => []
  else if m.type = some "video" then
    match m.video_info with
    | some vinfo =>
      match bestVariantUrl vinfo.variants with
      | some u => [u]
      | none => []
    | none => []
  else []

/-- Media list selection: the `extended_entities` media list when present
and non-empty, otherwise the primary `media` attribute. -/
def tweetMediaList (t : RawTweet) : List MediaItem :=
  let fromExt := match t.extended_entities with
    | some l => l
    | none => []
  if fromExt = [] then t.media else fromExt

/-- All media URLs of a tweet, in iteration order, no de-duplication. -/
def extractMediaUrls (t : RawTweet) : List String :=
  (tweetMediaList t).foldl (fun acc m => acc ++ mediaItemUrls m) []

/-! Specification-side restatement of the variant selection, used for the
refinement theorem of claim C1: keep exactly the MP4 variants that carry a
truthy url, and among those pick the last one whose bitrate is maximal
(`>=`, last-equal-wins). -/

/-- A variant is admissible when its content type is the MP4 encoding and
its url is a truthy string. -/
def admissible (v : Variant) : Bool :=
  decide (v.content_type = some "video/mp4") && strTruthy v.url

/-- The admissible variants of a variant list, in order. -/
def admissibleVariants (vs : List (Option Variant)) : List Variant :=
  vs.filterMap (fun e => match e with
    | some v => if admissible v then some v else none
    | none => none)

/-- Modelled from the spec: one step of "select the variant with the
highest bitrate, a later variant with an equal bitrate replaces the
current best". -/
def specStepF (acc : Option Variant) (v : Variant) : Option Variant :=
  match acc with
  | none => some v
  | some w =>
    if pyIntOfBitrate w.bitrate ≤ pyIntOfBitrate v.bitrate then some v
    else some w

/-- Modelled from the spec: the last variant achieving the maximal
bitrate. -/
def specPickLast (vs : List Variant) : Option Variant :=
  vs.foldl specStepF none

/-- Modelled from the spec: the URL selected for a video media item. -/
def specSelectedUrl (vs : List (Option Variant)) : Option String :=
  match specPickLast (admissibleVariants vs) with
  | some v => v.url
  | none => none

/-- Replacing a variant's bitrate field by its parsed integer value
(unparsable becomes a literal `0`). -/
def canonVariant (v : Variant) : Variant :=
  { content_type := v.content_type
    bitrate := some (.parsed (pyIntOfBitrate v.bitrate))
    url := v.url }

/-! ## Timestamp parsing
`datetime.strptime(s, "%a %b %d %H:%M:%S %z %Y")` restricted to the
calendar date it yields: six space-separated fields, an abbreviated
weekday name, an abbreviated month name, a day within the month, a valid
time of day, a UTC offset, and a four-digit year. -/

/-- Splitting a character list on a separator character, like
`str.split(sep)` on every occurrence (empty chunks preserved). -/
def splitChar (c : Char) : List Char → List (List Char)
  | [] => [[]]
  | x :: xs =>
    match splitChar c xs with
    | [] => if x = c then [[], []] else [[x]]
    | h :: t => if x = c then [] :: h :: t else (x :: h) :: t

/-- A non-empty all-digit chunk read as a decimal number. -/
def digitsToNat? (l : List Char) : Option Nat :=
  if l ≠ [] ∧ l.all Char.isDigit = true then
    some (l.foldl (fun n c => n * 10 + (c.toNat - 48)) 0)
  else none

/-- Abbreviated weekday names accepted by `%a`. -/
def isWeekdayName : List Char → Bool
  | ['M', 'o', 'n'] => true
  | ['T', 'u', 'e'] => true
  | ['W', 'e', 'd'] => true
  | ['T', 'h', 'u'] => true
  | ['F', 'r', 'i'] => true
  | ['S', 'a', 't'] => true
  | ['S', 'u', 'n'] => true
  | _ => false

/-- Abbreviated month names accepted by `%b`. -/
def monthNum : List Char → Option Nat
  | ['J', 'a', 'n'] => some 1
  | ['F', 'e', 'b'] => some 2
  | ['M', 'a', 'r'] => some 3
  | ['A', 'p', 'r'] => some 4
  | ['M', 'a', 'y'] => some 5
  | ['J', 'u', 'n'] => some 6
  | ['J', 'u', 'l'] => some 7
  | ['A', 'u', 'g'] => some 8
  | ['S', 'e', 'p'] => some 9
  | ['O', 'c', 't'] => some 10
  | ['N', 'o', 'v'] => some 11
  | ['D', 'e', 'c'] => some 12
  | _ => none

def isLeap (y : Nat) : Bool :=
  (y % 4 = 0 && y % 100 ≠ 0) || y % 400 = 0

def daysInMonth (y m : Nat) : Nat :=
  if m = 2 then (if isLeap y then 29 else 28)
  else if m = 4 ∨ m = 6 ∨ m = 9 ∨ m = 11 then 30
  else 31

/-- `%H:%M:%S`: one or two digits per field, hour below 24, minute below
60, second up to 61 (leap seconds, as in `strptime`). -/
def validTime (l : List Char) : Bool :=
  match splitChar ':' l with
  | [h, m, sec] =>
    (match digitsToNat? h, digitsToNat? m, digitsToNat? sec with
     | some hn, some mn, some sn =>
       decide (1 ≤ h.length ∧ h.length ≤ 2 ∧ hn ≤ 23) &&
       decide (1 ≤ m.length ∧ m.length ≤ 2 ∧ mn ≤ 59) &&
       decide (1 ≤ sec.length ∧ sec.length ≤ 2 ∧ sn ≤ 61)
     | _, _, _ => false)
  | _ => false

/-- `%z`: `Z` or a sign followed by four digits `HHMM` with a valid
offset. -/
def validTz : List Char → Bool
  | ['Z'] => true
  | [sign, h1, h2, m1, m2] =>
    (sign = '+' || sign = '-') &&
    h1.isDigit && h2.isDigit && m1.isDigit && m2.isDigit &&
    decide ((h1.toNat - 48) * 10 + (h2.toNat - 48) ≤ 23) &&
    decide ((m1.toNat - 48) * 10 + (m2.toNat - 48) ≤ 59)
  | _ => false

/-- The calendar date extracted by
`datetime.strptime(s, "%a %b %d %H:%M:%S %z %Y").date()`, or `none` when
parsing raises `ValueError`. -/
def parseTwitterDate (s : String) : Option Date :=
  match splitChar ' ' s.data with
  | [dow, mon, day, time, tz, year] =>
    if isWeekdayName dow = true then
      match monthNum mon, digitsToNat? day, digitsToNat? year with
      | some m, some d, some y =>
        if 1 ≤ day.length ∧ day.length ≤ 2 ∧ 1 ≤ d ∧ d ≤ daysInMonth y m ∧
           validTime time = true ∧ validTz tz = true ∧
           year.length = 4 ∧ 1 ≤ y then
          some { year := y, month := m, day := d }
        else none
      | _, _, _ => none
    else none
  | _ => none

/-- Python truthiness of the raw `created_at` value: a `datetime` object
is always truthy, a string is truthy iff non-empty. -/
def CreatedAt.truthy : CreatedAt → Bool
  | .dtObj _ _ => true
  | .strVal s => decide (s ≠ "")

/-- The comparable date of a `created_at` value: a `datetime` object is
used as-is, a string goes through `strptime`. -/
def CreatedAt.datetime : CreatedAt → Option Date
  | .dtObj d _ => some d
  | .strVal s => parseTwitterDate s

/-- `str(tweet_created_at_str)`: the retained original string form. -/
def CreatedAt.asStr : CreatedAt → String
  | .dtObj _ r => r
  | .strVal s => s

/-! ## Date-range filtering and record mapping (`search_tweets`) -/

/-- The author handle of a raw tweet:
`getattr(user_data, 'screen_name', None) if user_data else None`. -/
def tweetScreenName (t : RawTweet) : Option String :=
  match t.user with
  | some u => u.screen_name
  | none => none

/-- Canonical tweet URL: built exactly when both `tweet_id` and
`screen_name` are truthy. -/
def tweetUrl (t : RawTweet) : Option String :=
  match t.id, tweetScreenName t with
  | some i, some s =>
    if i ≠ "" ∧ s ≠ "" then
      some ("https://twitter.com/" ++ s ++ "/status/" ++ i)
    else none
  | some _, none => none
  | none, _ => none

/-- Mapping one in-range raw tweet to the output schema, given the string
form of its `created_at`. -/
def mapTweet (t : RawTweet) (createdRepr : String) : TweetData :=
  { id := t.id
    text := t.text
    created_at := some createdRepr
    user := match t.user with
      | some u => some { id := u.id, name := u.name, screen_name := u.screen_name }
      | none => none
    tweet_url := tweetUrl t
    media_urls := extractMediaUrls t }

/-- `tweet_date < start_date_obj` when a start bound is present. -/
def beforeStart (sdo : Option Date) (d : Date) : Bool :=
  match sdo with
  | some s => Date.before d s
  | none => false

/-- `tweet_date > end_date_obj` when an end bound is present. -/
def afterEnd (edo : Option Date) (d : Date) : Bool :=
  match edo with
  | some e => Date.before e d
  | none => false

/-- A record date is excluded when it is strictly before the start bound
or strictly after the end bound. -/
def excludedByDate (sdo edo : Option Date) (d : Date) : Bool :=
  beforeStart sdo d || afterEnd edo d

/-- One iteration of the `search_tweets` normalization loop over
`(response_data, filtered_count)`: skip records with a falsy or
unparsable `created_at`, count and skip records outside the date range,
and append the mapped record otherwise. -/
def searchStep (sdo edo : Option Date) (acc : List TweetData × Nat)
    (t : RawTweet) : List TweetData × Nat :=
  match t.created_at with
  | none => acc
  | some c =>
    if c.truthy = true then
      match c.datetime with
      | none => acc
      | some d =>
        if beforeStart sdo d = true then (acc.1, acc.2 + 1)
        else if afterEnd edo d = true then (acc.1, acc.2 + 1)
        else (acc.1 ++ [mapTweet t c.asStr], acc.2)
    else acc

/-- The whole normalization loop of `search_tweets`: the kept records in
order plus the count of records filtered out by the date range. -/
def normalizeSearch (sdo edo : Option Date) (ts : List RawTweet) :
    List TweetData × Nat :=
  ts.foldl (searchStep sdo edo) ([], 0)

/-- The comparable date of a record, `none` when `created_at` is absent,
falsy, or unparsable. -/
def recordDate (t : RawTweet) : Option Date :=
  match t.created_at with
  | none => none
  | some c => if c.truthy = true then c.datetime else none

/-- Modelled from the spec: a record is kept when its date resolved and is
not excluded by the range. -/
def keptPred (sdo edo : Option Date) (t : RawTweet) : Bool :=
  match recordDate t with
  | some d => !excludedByDate sdo edo d
  | none => false

/-- Modelled from the spec: a record counts as filtered out when its date
resolved and is excluded by the range. -/
def droppedPred (sdo edo : Option Date) (t : RawTweet) : Bool :=
  match recordDate t with
  | some d => excludedByDate sdo edo d
  | none => false

/-- Mapping a kept record (its `created_at` is necessarily present). -/
def mapKept (t : RawTweet) : TweetData :=
  mapTweet t (match t.created_at with
    | some c => c.asStr
    | none => "")

/-! ## Session store, bootstrap and gate -/

/-- The deployment mode read from `ENV_TYPE`. -/
inductive EnvType where
  | dev
  | prod
deriving DecidableEq, Repr

/-- A user object returned by the identity probe `client.user()`;
`hasattr(user_data, 'screen_name')` is modelled as `screen_name.isSome`. -/
structure UserData where
  screen_name : Option String
deriving DecidableEq, Repr

/-- The twikit client as the gate sees it: only `_logged_in_user`
matters. -/
structure Client where
  logged_in_user : Option UserData
deriving DecidableEq, Repr

/-- The error taxonomy surfaced through `HTTPException`. -/
inductive ApiError where
  | badRequest (detail : String)
  | sessionUnavailable (detail : String)
  | internalError (detail : String)
deriving DecidableEq, Repr

/-- The mode-specific hint carried by the 503 gate rejection. -/
def modeHint : EnvType → String
  | .dev =>
    "Twikit client not available or not logged in. Try logging in via /login-admin."
  | .prod =>
    "Twikit client not available. Check server logs and ensure TWITTER_AUTH_TOKEN is set correctly for prod mode."

/-- The dependency `get_twikit_client`: yields the stored client when it
exists and has a logged-in user, otherwise raises a 503 with the
mode-specific hint. -/
def get_twikit_client (mode : EnvType) (store : Option Client) :
    Except ApiError Client :=
  match store with
  | some c =>
    if c.logged_in_user.isSome = true then .ok c
    else .error (.sessionUnavailable (modeHint mode))
  | none => .error (.sessionUnavailable (modeHint mode))

/-- A protected operation: the gate runs first; the provider is called
exactly when the gate passes (the boolean records whether the provider was
reached). -/
def runProtected {α : Type} (mode : EnvType) (store : Option Client)
    (op : Client → α) : Except ApiError α × Bool :=
  match get_twikit_client mode store with
  | .error e => (.error e, false)
  | .ok c => (.ok (op c), true)

/-- The `TWITTER_COOKIES_JSON_STRING` environment input as seen after
`json.loads`: absent, malformed JSON, parsed but not a one-element list
holding a dict, or the cookie mapping of a correctly shaped blob. -/
inductive CookiesEnv where
  | absent
  | malformed
  | wrongShape
  | shaped (cookies : List (String × String))
deriving DecidableEq, Repr

/-- The outcome of the identity probe `client.user()`: a returned value
(possibly `None`), a twikit `NotFound` error, or any other exception. -/
inductive ProbeOutcome where
  | ok (u : Option UserData)
  | notFound
  | err
deriving DecidableEq, Repr

/-- Prod-mode bootstrap (`initialize_twikit_client`, prod branch):
returns the resulting global client together with whether the identity
probe was called. Every failure path leaves the store empty and raises
nothing to callers. -/
def initialize_prod (env : CookiesEnv) (probe : ProbeOutcome) :
    Option Client × Bool :=
  match env with
  | .absent => (none, false)
  | .malformed => (none, false)
  | .wrongShape => (none, false)
  | .shaped cs =>
    if cs = [] then (none, false)
    else
      match probe with
      | .ok (some u) =>
        if u.screen_name.isSome = true then
          (some { logged_in_user := some u }, true)
        else (none, true)
      | .ok none => (none, true)
      | .notFound => (none, true)
      | .err => (none, true)

/-- The credential triple from the environment (each may be absent or
empty, both falsy). -/
structure Creds where
  username : Option String
  email : Option String
  password : Option String
deriving DecidableEq, Repr

/-- The outcome of `client.login(...)` followed by the identity probe in
dev mode: the login either raises `EOFError` (interactive input needed),
raises some other exception, or succeeds and the probe yields its
outcome. -/
inductive LoginOutcome where
  | ok (probe : ProbeOutcome)
  | eofError
  | exn
deriving DecidableEq, Repr

/-- Dev-mode bootstrap (`initialize_twikit_client`, dev branch): requires
all three credentials truthy, then login plus probe; any failure leaves
the store empty. -/
def initialize_dev (creds : Creds) (login : LoginOutcome) : Option Client :=
  if (strTruthy creds.username && strTruthy creds.email &&
      strTruthy creds.password) = true then
    match login with
    | .eofError => none
    | .exn => none
    | .ok probe =>
      match probe with
      | .ok (some u) =>
        if u.screen_name.isSome = true then some { logged_in_user := some u }
        else none
      | .ok none => none
      | .notFound => none
      | .err => none
  else none

/-- The interaction outcome of `attempt_manual_login`: credential login
plus identity probe. -/
inductive ManualLoginOutcome where
  | ok (u : Option UserData)
  | eofError
  | exn
deriving DecidableEq, Repr

/-- `attempt_manual_login` (dev mode): returns the new global client and
whether the login succeeded; every failure resets the client to `None`. -/
def attempt_manual_login (outcome : ManualLoginOutcome) :
    Option Client × Bool :=
  match outcome with
  | .ok (some u) =>
    if u.screen_name.isSome = true then (some { logged_in_user := some u }, true)
    else (none, false)
  | .ok none => (none, false)
  | .eofError => (none, false)
  | .exn => (none, false)

/-- The visible outcome of the `/relogin` endpoint. -/
inductive ReloginResponse where
  | notFoundError
  | alreadyActive
  | loginSuccessful
  | loginFailed
deriving DecidableEq, Repr

/-- The full effect of a `/relogin` request: response, resulting store,
and whether the credential bootstrapper (`attempt_manual_login`) ran. -/
structure ReloginResult where
  response : ReloginResponse
  store : Option Client
  bootstrapperCalled : Bool
deriving DecidableEq, Repr

/-- The `/relogin` endpoint: 404 outside dev mode; "already active" when
a logged-in client exists, leaving the store untouched and never invoking
the bootstrapper; otherwise a synchronous credential bootstrap whose
success or failure is reported to the caller. -/
def relogin (mode : EnvType) (store : Option Client)
    (outcome : ManualLoginOutcome) : ReloginResult :=
  match mode with
  | .prod =>
    { response := .notFoundError, store := store, bootstrapperCalled := false }
  | .dev =>
    if (match store with
        | some c => c.logged_in_user.isSome
        | none => false) = true then
      { response := .alreadyActive, store := store, bootstrapperCalled := false }
    else
      match attempt_manual_login outcome with
      | (newStore, true) =>
        { response := .loginSuccessful, store := newStore, bootstrapperCalled := true }
      | (newStore, false) =>
        { response := .loginFailed, store := newStore, bootstrapperCalled := true }

/-! ## The search endpoint -/

/-- `datetime.strptime(s, "%Y-%m-%d").date()` behind the
`^\d{4}-\d{2}-\d{2}$` query regex: four-digit year, two-digit month and
day, a real calendar date. -/
def parseIsoDate (s : String) : Option Date :=
  match splitChar '-' s.data with
  | [y, m, d] =>
    (match digitsToNat? y, digitsToNat? m, digitsToNat? d with
     | some yn, some mn, some dn =>
       if y.length = 4 ∧ m.length = 2 ∧ d.length = 2 ∧ 1 ≤ yn ∧
          1 ≤ mn ∧ mn ≤ 12 ∧ 1 ≤ dn ∧ dn ≤ daysInMonth yn mn then
         some { year := yn, month := mn, day := dn }
       else none
     | _, _, _ => none)
  | _ => none

/-- Parsing one optional date query parameter; a present but invalid
value is a 400. -/
def parseOptDate : Option String → Except ApiError (Option Date)
  | none => .ok none
  | some s =>
    match parseIsoDate s with
    | some d => .ok (some d)
    | none => .error (.badRequest "Invalid date format. Please use YYYY-MM-DD.")

/-- The result of a `/search/tweets` request together with the number of
provider (`client.search_tweet`) calls it made. -/
structure SearchOutcome where
  result : Except ApiError (List TweetData)
  providerCalls : Nat
deriving Repr

/-- The `/search/tweets` endpoint: gate, date parsing, the
start-after-end validation, then exactly one provider call whose raw
records run through the normalization loop. -/
def search_tweets (mode : EnvType) (store : Option Client)
    (startStr endStr : Option String) (provider : List RawTweet) :
    SearchOutcome :=
  match get_twikit_client mode store with
  | .error e => { result := .error e, providerCalls := 0 }
  | .ok _ =>
    match parseOptDate startStr, parseOptDate endStr with
    | .error e, _ => { result := .error e, providerCalls := 0 }
    | .ok _, .error e => { result := .error e, providerCalls := 0 }
    | .ok sdo, .ok edo =>
      if (match sdo, edo with
          | some s, some e => Date.before e s
          | _, _ => false) = true then
        { result := .error (.badRequest "Start date cannot be after end date.")
          providerCalls := 0 }
      else
        { result := .ok (normalizeSearch sdo edo provider).1
          providerCalls := 1 }

/-! ## Theorems -/

/-- Claim C2: for every bootstrap mode, a failed bootstrap attempt (login
error, probe failure, malformed cookie configuration, or missing
credentials) leaves the Session Store empty — equivalently, a non-empty
store can only arise from a fully successful bootstrap — and while the
store is empty every protected operation is rejected with a
`SessionUnavailable` (503) error carrying a mode-specific hint, without
calling the provider. -/
theorem C2_bootstrap_failure_gate :
    (∀ (env : CookiesEnv) (probe : ProbeOutcome),
      ((initialize_prod env probe).1).isSome = true →
      ∃ cs u, env = CookiesEnv.shaped cs ∧ cs ≠ [] ∧
        probe = ProbeOutcome.ok (some u) ∧ u.screen_name.isSome = true) ∧
    (∀ (creds : Creds) (login : LoginOutcome),
      (initialize_dev creds login).isSome = true →
      ∃ u, strTruthy creds.username = true ∧ strTruthy creds.email = true ∧
        strTruthy creds.password = true ∧
        login = LoginOutcome.ok (ProbeOutcome.ok (some u)) ∧
        u.screen_name.isSome = true) ∧
    (∀ (mode : EnvType) (α : Type) (op : Client → α),
      runProtected mode none op =
        (.error (.sessionUnavailable (modeHint mode)), false)) ∧
    modeHint EnvType.dev ≠ modeHint EnvType.prod := by
  refine ⟨?_, ?_, ?_, by decide⟩
  · intro env probe h
    cases env with
    | absent => simp [initialize_prod] at h
    | malformed => simp [initialize_prod] at h
    | wrongShape => simp [initialize_prod] at h
    | shaped cs =>
      by_cases hcs : cs = []
      · simp [initialize_prod, hcs] at h
      · cases probe with
        | ok u =>
          cases u with
          | none => simp [initialize_prod, hcs] at h
          | some w =>
            by_cases hw : w.screen_name.isSome = true
            · exact ⟨cs, w, rfl, hcs, rfl, hw⟩
            · simp [initialize_prod, hcs, hw] at h
        | notFound => simp [initialize_prod, hcs] at h
        | err => simp [initialize_prod, hcs] at h
  · intro creds login h
    by_cases hc : (strTruthy creds.username && strTruthy creds.email &&
        strTruthy creds.password) = true
    · have hc3 : strTruthy creds.username = true ∧ strTruthy creds.email = true ∧
          strTruthy creds.password = true := by
        simp [Bool.and_eq_true] at hc
        exact ⟨hc.1.1, hc.1.2, hc.2⟩
      cases login with
      | eofError => simp [initialize_dev, hc] at h
      | exn => simp [initialize_dev, hc] at h
      | ok probe =>
        cases probe with
        | ok u =>
          cases u with
          | none => simp [initialize_dev, hc] at h
          | some w =>
            by_cases hw : w.screen_name.isSome = true
            · exact ⟨w, hc3.1, hc3.2.1, hc3.2.2, rfl, hw⟩
            · simp [initialize_dev, hc, hw] at h
        | notFound => simp [initialize_dev, hc] at h
        | err => simp [initialize_dev, hc] at h
    · simp [initialize_dev, hc] at h
  · intro mode α op
    simp [runProtected, get_twikit_client]

/-- Witness for C2: a correctly shaped cookie blob with a successful probe
is the only way the prod store becomes non-empty. -/
theorem C2_bootstrap_failure_gate_witness :
    ∃ cs u, CookiesEnv.shaped [("a", "1")] = CookiesEnv.shaped cs ∧ cs ≠ [] ∧
      ProbeOutcome.ok (some { screen_name := some "x" }) =
        ProbeOutcome.ok (some u) ∧ u.screen_name.isSome = true :=
  C2_bootstrap_failure_gate.1 (CookiesEnv.shaped [("a", "1")])
    (ProbeOutcome.ok (some { screen_name := some "x" })) (by decide)

/-- Claim C3: in cookie-string mode, a blob that is not exactly a
one-element list holding a non-empty mapping is a configuration error —
the bootstrap returns with the store empty and the identity probe is
never called — while the correctly shaped blob with two cookies produces
a session exactly when the probe returns a user carrying a resolvable
handle. -/
theorem C3_cookie_shape_validation :
    (∀ probe : ProbeOutcome,
      initialize_prod CookiesEnv.wrongShape probe = (none, false)) ∧
    (∀ probe : ProbeOutcome,
      initialize_prod CookiesEnv.malformed probe = (none, false)) ∧
    (∀ probe : ProbeOutcome,
      initialize_prod (CookiesEnv.shaped []) probe = (none, false)) ∧
    (∀ probe : ProbeOutcome,
      ((initialize_prod (CookiesEnv.shaped [("a", "1"), ("b", "2")]) probe).1).isSome
          = true ↔
        ∃ u, probe = ProbeOutcome.ok (some u) ∧ u.screen_name.isSome = true) := by
  refine ⟨fun _ => rfl, fun _ => rfl, fun _ => rfl, ?_⟩
  intro probe
  constructor
  · intro h
    cases probe with
    | ok u =>
      cases u with
      | none => simp [initialize_prod] at h
      | some w =>
        by_cases hw : w.screen_name.isSome = true
        · exact ⟨w, rfl, hw⟩
        · simp [initialize_prod, hw] at h
    | notFound => simp [initialize_prod] at h
    | err => simp [initialize_prod] at h
  · rintro ⟨u, rfl, hu⟩
    simp [initialize_prod, hu]

/-- Witness for C3: the probe returning a user with a handle yields a
session for the well-shaped blob. -/
theorem C3_cookie_shape_validation_witness :
    ((initialize_prod (CookiesEnv.shaped [("a", "1"), ("b", "2")])
        (ProbeOutcome.ok (some { screen_name := some "me" }))).1).isSome = true :=
  (C3_cookie_shape_validation.2.2.2
      (ProbeOutcome.ok (some { screen_name := some "me" }))).mpr
    ⟨{ screen_name := some "me" }, rfl, rfl⟩

/-- Claim C6: the canonical tweet URL is present exactly when both the
tweet id and the author handle are truthy, and when present it is exactly
`https://twitter.com/<handle>/status/<id>`. -/
theorem C6_canonical_url (t : RawTweet) :
    ((tweetUrl t).isSome = true ↔
      (strTruthy t.id = true ∧ strTruthy (tweetScreenName t) = true)) ∧
    (∀ i s, t.id = some i → tweetScreenName t = some s → i ≠ "" → s ≠ "" →
      tweetUrl t = some ("https://twitter.com/" ++ s ++ "/status/" ++ i)) := by
  constructor
  · unfold tweetUrl strTruthy
    cases hid : t.id with
    | none => simp
    | some i =>
      cases hsn : tweetScreenName t with
      | none => simp
      | some s =>
        by_cases hcond : i ≠ "" ∧ s ≠ ""
        · simp [hcond, hcond.1, hcond.2]
        · simp only [hcond, if_false]
          simp at hcond ⊢
          intro hi
          exact hcond hi
  · intro i s hi hs hi0 hs0
    unfold tweetUrl
    rw [hi, hs]
    simp [hi0, hs0]

/-- Witness for C6: a tweet with id `123` and handle `alice` gets the
canonical URL. -/
theorem C6_canonical_url_witness :
    tweetUrl { id := some "123", text := none, created_at := none,
               user := some { id := none, name := none, screen_name := some "alice" },
               extended_entities := none, media := [] } =
      some ("https://twitter.com/" ++ "alice" ++ "/status/" ++ "123") :=
  (C6_canonical_url _).2 "123" "alice" rfl rfl (by decide) (by decide)

/-- Claim C7: a `/relogin` request while a logged-in client exists
returns the "already active" signal, never invokes the credential
bootstrapper, and leaves the stored session unchanged. -/
theorem C7_relogin_already_active (u : UserData) (outcome : ManualLoginOutcome) :
    relogin EnvType.dev (some { logged_in_user := some u }) outcome =
      { response := ReloginResponse.alreadyActive,
        store := some { logged_in_user := some u },
        bootstrapperCalled := false } := by
  simp [relogin]

/-- Claim C4: a record with a parseable date is excluded exactly when its
date is strictly before the start bound or strictly after the end bound;
an absent bound never excludes on its side; the spec's three concrete
examples for 2024-01-05; and the normalization loop realizes exactly this
predicate (count and skip when excluded, map and keep otherwise). -/
theorem C4_date_range_filter :
    (∀ (s e d : Date), excludedByDate (some s) (some e) d =
        (Date.before d s || Date.before e d)) ∧
    (∀ (e d : Date), excludedByDate none (some e) d = Date.before e d) ∧
    (∀ (s d : Date), excludedByDate (some s) none d = Date.before d s) ∧
    (∀ d : Date, excludedByDate none none d = false) ∧
    excludedByDate (some ⟨2024, 1, 1⟩) (some ⟨2024, 1, 10⟩) ⟨2024, 1, 5⟩ = false ∧
    excludedByDate (some ⟨2024, 1, 6⟩) (some ⟨2024, 1, 10⟩) ⟨2024, 1, 5⟩ = true ∧
    excludedByDate (some ⟨2024, 1, 1⟩) (some ⟨2024, 1, 4⟩) ⟨2024, 1, 5⟩ = true ∧
    (∀ (sdo edo : Option Date) (acc : List TweetData × Nat) (t : RawTweet)
        (c : CreatedAt) (d : Date),
      t.created_at = some c → c.truthy = true → c.datetime = some d →
      searchStep sdo edo acc t =
        (if excludedByDate sdo edo d = true then (acc.1, acc.2 + 1)
         else (acc.1 ++ [mapTweet t c.asStr], acc.2))) := by
  refine ⟨?_, ?_, ?_, ?_, by decide, by decide, by decide, ?_⟩
  · intro s e d; rfl
  · intro e d; rfl
  · intro s d; simp [excludedByDate, beforeStart, afterEnd]
  · intro d; rfl
  · intro sdo edo acc t c d hc ht hd
    unfold searchStep
    rw [hc]
    simp only [ht, if_true]
    rw [hd]
    unfold excludedByDate
    by_cases hb : beforeStart sdo d = true
    · simp [hb]
    · by_cases ha : afterEnd edo d = true
      · simp [hb, ha]
      · simp [hb, ha]

/-- Witness for C4: a record dated 2024-01-05 is counted out for the
range starting 2024-01-06. -/
theorem C4_date_range_filter_witness :
    searchStep (some ⟨2024, 1, 6⟩) (some ⟨2024, 1, 10⟩) ([], 0)
      { id := none, text := none,
        created_at := some (.dtObj ⟨2024, 1, 5⟩ "d"), user := none,
        extended_entities := none, media := [] } =
      (([] : List TweetData), 1) := by
  have h := C4_date_range_filter.2.2.2.2.2.2.2 (some ⟨2024, 1, 6⟩)
    (some ⟨2024, 1, 10⟩) ([], 0)
    { id := none, text := none,
      created_at := some (.dtObj ⟨2024, 1, 5⟩ "d"), user := none,
      extended_entities := none, media := [] }
    (.dtObj ⟨2024, 1, 5⟩ "d") ⟨2024, 1, 5⟩ rfl rfl rfl
  rw [h]
  decide

/-- Claim C5: a search request supplying both dates with
`start_date > end_date` makes zero provider calls, and (when a session is
present, so that the gate is passed) is rejected with the 400
start-after-end validation error. -/
theorem C5_date_order_validation (mode : EnvType) (store : Option Client)
    (ss es : String) (provider : List RawTweet) (s e : Date)
    (hs : parseIsoDate ss = some s) (he : parseIsoDate es = some e)
    (hgt : Date.before e s = true) :
    (search_tweets mode store (some ss) (some es) provider).providerCalls = 0 ∧
    (∀ u : UserData, store = some { logged_in_user := some u } →
      (search_tweets mode store (some ss) (some es) provider).result =
        .error (.badRequest "Start date cannot be after end date.")) := by
  unfold search_tweets
  cases hg : get_twikit_client mode store with
  | error err =>
    refine ⟨rfl, ?_⟩
    intro u hu
    rw [hu] at hg
    simp [get_twikit_client] at hg
  | ok c =>
    simp [parseOptDate, hs, he, hgt]

/-- Witness for C5: start 2024-01-10, end 2024-01-01 is rejected with
zero provider calls. -/
theorem C5_date_order_validation_witness :
    (search_tweets EnvType.dev
        (some { logged_in_user := some { screen_name := some "x" } })
        (some "2024-01-10") (some "2024-01-01") []).providerCalls = 0 ∧
    (search_tweets EnvType.dev
        (some { logged_in_user := some { screen_name := some "x" } })
        (some "2024-01-10") (some "2024-01-01") []).result =
      .error (.badRequest "Start date cannot be after end date.") := by
  have h := C5_date_order_validation EnvType.dev
    (some { logged_in_user := some { screen_name := some "x" } })
    "2024-01-10" "2024-01-01" [] ⟨2024, 1, 10⟩ ⟨2024, 1, 1⟩
    (by decide) (by decide) (by decide)
  exact ⟨h.1, h.2 { screen_name := some "x" } rfl⟩

/-- One loop iteration, restated through the kept/dropped predicates. -/
lemma searchStep_eq (sdo edo : Option Date) (acc : List TweetData × Nat)
    (t : RawTweet) :
    searchStep sdo edo acc t =
      if keptPred sdo edo t = true then (acc.1 ++ [mapKept t], acc.2)
      else if droppedPred sdo edo t = true then (acc.1, acc.2 + 1)
      else acc := by
  unfold searchStep keptPred droppedPred recordDate mapKept
  cases hc : t.created_at with
  | none => simp
  | some c =>
    by_cases ht : c.truthy = true
    · simp only [ht, if_true]
      cases hd : c.datetime with
      | none => simp
      | some d =>
        simp only [excludedByDate]
        by_cases hb : beforeStart sdo d = true
        · simp [hb]
        · by_cases ha : afterEnd edo d = true
          · simp [hb, ha]
          · simp [hb, ha]
    · simp [ht]

/-- A kept record is not a dropped record. -/
lemma keptPred_not_dropped {sdo edo : Option Date} {t : RawTweet}
    (h : keptPred sdo edo t = true) : droppedPred sdo edo t = false := by
  unfold keptPred at h
  unfold droppedPred
  cases hr : recordDate t with
  | none => simp
  | some d =>
    rw [hr] at h
    simp at h
    simp [h]

/-- The normalization loop, fully characterized: filter first, then map
the kept records; count the dropped records. -/
lemma normalize_loop (sdo edo : Option Date) :
    ∀ (ts : List RawTweet) (acc : List TweetData × Nat),
      ts.foldl (searchStep sdo edo) acc =
        (acc.1 ++ (ts.filter (keptPred sdo edo)).map mapKept,
         acc.2 + (ts.filter (droppedPred sdo edo)).length) := by
  intro ts
  induction ts with
  | nil => intro acc; simp
  | cons t ts ih =>
    intro acc
    rw [List.foldl_cons, ih, searchStep_eq]
    by_cases hk : keptPred sdo edo t = true
    · have hd := keptPred_not_dropped hk
      simp [hk, hd, List.filter_cons]
    · by_cases hd : droppedPred sdo edo t = true
      · simp only [hk, if_false, hd, if_true, List.filter_cons]
        simp [hk, hd]
        omega
      · simp [hk, hd, List.filter_cons]

/-- Claim C8: the search normalization applies the date filter before
mapping to the output schema — the result is exactly the map of the
filtered raw records — and the loop returns both the kept normalized
records and the count of records filtered out by the date range. -/
theorem C8_filter_before_map (sdo edo : Option Date) (ts : List RawTweet) :
    normalizeSearch sdo edo ts =
      ((ts.filter (keptPred sdo edo)).map mapKept,
       (ts.filter (droppedPred sdo edo)).length) := by
  unfold normalizeSearch
  rw [normalize_loop]
  simp

/-- Claim C9: a record whose raw timestamp is a string that the fixed
format cannot parse is skipped individually — removing it from the batch
does not change the loop's output, which stays total (no error is ever
raised) — while the fixed-format example string parses and garbage does
not. -/
theorem C9_unparsable_timestamp_skip :
    (∀ (sdo edo : Option Date) (xs ys : List RawTweet) (bad : RawTweet)
        (s : String),
      bad.created_at = some (.strVal s) → parseTwitterDate s = none →
      normalizeSearch sdo edo (xs ++ bad :: ys) =
        normalizeSearch sdo edo (xs ++ ys)) ∧
    parseTwitterDate "Mon Apr 21 21:53:41 +0000 2025" =
      some { year := 2025, month := 4, day := 21 } ∧
    parseTwitterDate "not a date" = none := by
  refine ⟨?_, by decide, by decide⟩
  intro sdo edo xs ys bad s hca hp
  have hstep : ∀ acc, searchStep sdo edo acc bad = acc := by
    intro acc
    unfold searchStep
    rw [hca]
    by_cases hs : s = ""
    · simp [CreatedAt.truthy, hs]
    · simp [CreatedAt.truthy, hs, CreatedAt.datetime, hp]
  unfold normalizeSearch
  rw [List.foldl_append, List.foldl_cons, hstep, ← List.foldl_append]

/-- Witness for C9: a batch containing one unparsable-timestamp record
normalizes like the batch without it. -/
theorem C9_unparsable_timestamp_skip_witness :
    normalizeSearch none none
      ([] ++ { id := some "1", text := none,
               created_at := some (.strVal "not a date"), user := none,
               extended_entities := none, media := [] } :: []) =
      normalizeSearch none none ([] ++ []) :=
  C9_unparsable_timestamp_skip.1 none none [] []
    { id := some "1", text := none,
      created_at := some (.strVal "not a date"), user := none,
      extended_entities := none, media := [] }
    "not a date" rfl (by decide)

/-- The loop state corresponding to a spec-side current pick. -/
def stateOfSpec : Option Variant → Option String × Int
  | none => (none, -1)
  | some w => (w.url, pyIntOfBitrate w.bitrate)

/-- A non-admissible variant never changes the loop state. -/
lemma variantStep_notAdmissible (v : Variant) (h : admissible v = false)
    (st : Option String × Int) : variantStep st (some v) = st := by
  unfold admissible at h
  unfold variantStep
  by_cases hct : v.content_type = some "video/mp4"
  · simp [hct] at h
    simp [hct, h]
  · simp [hct]

/-- A variant whose url is absent never changes the loop state. -/
lemma variantStep_urlless (v : Variant) (h : v.url = none)
    (st : Option String × Int) : variantStep st (some v) = st := by
  unfold variantStep
  by_cases hct : v.content_type = some "video/mp4"
  · simp [hct, h, strTruthy]
  · simp [hct]

lemma admissibleVariants_cons_none (vs : List (Option Variant)) :
    admissibleVariants (none :: vs) = admissibleVariants vs := by
  simp [admissibleVariants]

lemma admissibleVariants_cons_pos {v : Variant} (h : admissible v = true)
    (vs : List (Option Variant)) :
    admissibleVariants (some v :: vs) = v :: admissibleVariants vs := by
  simp [admissibleVariants, h]

lemma admissibleVariants_cons_neg {v : Variant} (h : admissible v = false)
    (vs : List (Option Variant)) :
    admissibleVariants (some v :: vs) = admissibleVariants vs := by
  simp [admissibleVariants, h]

/-- Every member of the admissible sublist is admissible. -/
lemma admissibleVariants_mem {vs : List (Option Variant)} {w : Variant}
    (h : w ∈ admissibleVariants vs) : admissible w = true := by
  unfold admissibleVariants at h
  rw [List.mem_filterMap] at h
  rcases h with ⟨e, _, he⟩
  cases e with
  | none => simp at he
  | some v =>
    by_cases ha : admissible v = true
    · simp [ha] at he
      rw [← he]
      exact ha
    · simp [ha] at he

/-- The spec-side fold yields its start value or a member of the list. -/
lemma specFold_cases : ∀ (l : List Variant) (sp : Option Variant),
    l.foldl specStepF sp = sp ∨ ∃ w ∈ l, l.foldl specStepF sp = some w := by
  intro l
  induction l with
  | nil => intro sp; left; rfl
  | cons v l ih =>
    intro sp
    rw [List.foldl_cons]
    have hstep : specStepF sp v = sp ∨ specStepF sp v = some v := by
      unfold specStepF
      cases sp with
      | none => right; rfl
      | some w =>
        by_cases h : pyIntOfBitrate w.bitrate ≤ pyIntOfBitrate v.bitrate
        · right; simp [h]
        · left; simp [h]
    rcases ih (specStepF sp v) with h0 | ⟨w, hw, he⟩
    · rcases hstep with h1 | h1
      · left; rw [h0, h1]
      · right; exact ⟨v, List.mem_cons_self _ _, by rw [h0, h1]⟩
    · right; exact ⟨w, List.mem_cons_of_mem _ hw, he⟩

/-- The code-side fold simulates the spec-side fold over the admissible
sublist, provided every admissible bitrate is non-negative (bitrates are
non-negative in practice; an unparsable one is `0`). -/
lemma variantFold_spec : ∀ (vs : List (Option Variant)) (sp : Option Variant),
    (∀ w, sp = some w → strTruthy w.url = true) →
    (∀ v ∈ admissibleVariants vs, 0 ≤ pyIntOfBitrate v.bitrate) →
    vs.foldl variantStep (stateOfSpec sp) =
      stateOfSpec ((admissibleVariants vs).foldl specStepF sp) := by
  intro vs
  induction vs with
  | nil => intro sp _ _; rfl
  | cons e vs ih =>
    intro sp hsp hbr
    cases e with
    | none =>
      rw [admissibleVariants_cons_none] at hbr ⊢
      rw [List.foldl_cons]
      exact ih sp hsp hbr
    | some v =>
      by_cases ha : admissible v = true
      · rw [admissibleVariants_cons_pos ha] at hbr ⊢
        have hct : v.content_type = some "video/mp4" := by
          unfold admissible at ha
          simp [Bool.and_eq_true] at ha
          exact ha.1
        have hurl : strTruthy v.url = true := by
          unfold admissible at ha
          simp [Bool.and_eq_true] at ha
          exact ha.2
        have hv0 : 0 ≤ pyIntOfBitrate v.bitrate :=
          hbr v (List.mem_cons_self _ _)
        have hbr' : ∀ w ∈ admissibleVariants vs, 0 ≤ pyIntOfBitrate w.bitrate :=
          fun w hw => hbr w (List.mem_cons_of_mem _ hw)
        rw [List.foldl_cons, List.foldl_cons]
        have hstep : variantStep (stateOfSpec sp) (some v) =
            stateOfSpec (specStepF sp v) := by
          cases sp with
          | none =>
            unfold stateOfSpec variantStep specStepF
            have : (-1 : Int) ≤ pyIntOfBitrate v.bitrate := by omega
            simp [hct, hurl, this]
          | some w =>
            unfold stateOfSpec variantStep specStepF
            by_cases hle : pyIntOfBitrate w.bitrate ≤ pyIntOfBitrate v.bitrate
            · simp [hct, hurl, hle]
            · simp [hct, hurl, hle]
        rw [hstep]
        apply ih (specStepF sp v) ?_ hbr'
        intro w hw
        unfold specStepF at hw
        cases hspv : sp with
        | none =>
          rw [hspv] at hw
          cases hw
          exact hurl
        | some w0 =>
          rw [hspv] at hw
          by_cases hle : pyIntOfBitrate w0.bitrate ≤ pyIntOfBitrate v.bitrate
          · simp [hle] at hw
            rw [← hw]
            exact hurl
          · simp [hle] at hw
            rw [← hw]
            exact hsp w0 hspv
      · have ha' : admissible v = false := by
          simp at ha
          exact ha
        rw [admissibleVariants_cons_neg ha'] at hbr ⊢
        rw [List.foldl_cons, variantStep_notAdmissible v ha']
        exact ih sp hsp hbr

/-- The variant selection refines the spec's description: among the MP4,
url-bearing variants, the last one with maximal bitrate is selected. -/
lemma bestVariantUrl_eq_spec (vs : List (Option Variant))
    (hbr : ∀ v ∈ admissibleVariants vs, 0 ≤ pyIntOfBitrate v.bitrate) :
    bestVariantUrl vs = specSelectedUrl vs := by
  unfold bestVariantUrl specSelectedUrl specPickLast
  have h := variantFold_spec vs none (by intro w hw; cases hw) hbr
  have hinit : ((none, -1) : Option String × Int) = stateOfSpec none := rfl
  rw [hinit, h]
  cases hres : (admissibleVariants vs).foldl specStepF none with
  | none => rfl
  | some w =>
    have hmem : w ∈ admissibleVariants vs := by
      rcases specFold_cases (admissibleVariants vs) none with h0 | ⟨x, hx, he⟩
      · rw [h0] at hres; cases hres
      · rw [he] at hres
        cases hres
        exact hx
    have hadm : admissible w = true := admissibleVariants_mem hmem
    have hurl : strTruthy w.url = true := by
      unfold admissible at hadm
      simp [Bool.and_eq_true] at hadm
      exact hadm.2
    cases hu : w.url with
    | none => rw [hu] at hurl; simp [strTruthy] at hurl
    | some u =>
      rw [hu] at hurl
      simp [strTruthy] at hurl
      simp [stateOfSpec, hu, hurl]

/-- Canonicalizing bitrates (absent or unparsable becomes the integer 0)
never changes a loop step. -/
lemma variantStep_canon (st : Option String × Int) (e : Option Variant) :
    variantStep st (e.map canonVariant) = variantStep st e := by
  cases e with
  | none => rfl
  | some v =>
    unfold variantStep canonVariant
    simp [pyIntOfBitrate]

/-- Canonicalizing bitrates never changes the selected URL. -/
lemma bestVariantUrl_canon (vs : List (Option Variant)) :
    bestVariantUrl (vs.map (Option.map canonVariant)) = bestVariantUrl vs := by
  unfold bestVariantUrl
  have h : ∀ st, (vs.map (Option.map canonVariant)).foldl variantStep st =
      vs.foldl variantStep st := by
    intro st
    induction vs generalizing st with
    | nil => rfl
    | cons e vs ih =>
      rw [List.map_cons, List.foldl_cons, List.foldl_cons, variantStep_canon]
      exact ih _
  rw [h]

/-- Claim C1: the video media-extraction keeps only `video/mp4` variants
and selects the one with the highest bitrate under the `>=` comparison
(last-equal-wins), treating an unparsable bitrate as zero rather than
excluding the variant; in particular, for MP4 variants with bitrates
`[300, 900, 900, 500]` the URL of the second 900-bitrate variant is
selected. -/
theorem C1_media_variant_selection :
    (∀ vs : List (Option Variant),
      (∀ v ∈ admissibleVariants vs, 0 ≤ pyIntOfBitrate v.bitrate) →
      bestVariantUrl vs = specSelectedUrl vs) ∧
    (∀ vs : List (Option Variant),
      bestVariantUrl (vs.map (Option.map canonVariant)) = bestVariantUrl vs) ∧
    bestVariantUrl
      [some { content_type := some "video/mp4", bitrate := some .unparsable,
              url := some "u" }] = some "u" ∧
    bestVariantUrl
      [some { content_type := some "video/mp4", bitrate := some (.parsed 300),
              url := some "u1" },
       some { content_type := some "video/mp4", bitrate := some (.parsed 900),
              url := some "u2" },
       some { content_type := some "video/mp4", bitrate := some (.parsed 900),
              url := some "u3" },
       some { content_type := some "video/mp4", bitrate := some (.parsed 500),
              url := some "u4" }] = some "u3" :=
  ⟨fun vs h => bestVariantUrl_eq_spec vs h, bestVariantUrl_canon,
   by decide, by decide⟩

/-- Witness for C1: the refinement holds at the spec's four-variant
example. -/
theorem C1_media_variant_selection_witness :
    bestVariantUrl
      [some { content_type := some "video/mp4", bitrate := some (.parsed 300),
              url := some "u1" },
       some { content_type := some "video/mp4", bitrate := some (.parsed 900),
              url := some "u2" },
       some { content_type := some "video/mp4", bitrate := some (.parsed 900),
              url := some "u3" },
       some { content_type := some "video/mp4", bitrate := some (.parsed 500),
              url := some "u4" }] =
    specSelectedUrl
      [some { content_type := some "video/mp4", bitrate := some (.parsed 300),
              url := some "u1" },
       some { content_type := some "video/mp4", bitrate := some (.parsed 900),
              url := some "u2" },
       some { content_type := some "video/mp4", bitrate := some (.parsed 900),
              url := some "u3" },
       some { content_type := some "video/mp4", bitrate := some (.parsed 500),
              url := some "u4" }] :=
  C1_media_variant_selection.1
    [some { content_type := some "video/mp4", bitrate := some (.parsed 300),
            url := some "u1" },
     some { content_type := some "video/mp4", bitrate := some (.parsed 900),
            url := some "u2" },
     some { content_type := some "video/mp4", bitrate := some (.parsed 900),
            url := some "u3" },
     some { content_type := some "video/mp4", bitrate := some (.parsed 500),
            url := some "u4" }] (by decide)

/-- Claim C10: an MP4 variant without a url is ignored entirely — it
neither gets selected nor updates the running maximum, so deleting it
from the variant list leaves the selection unchanged — and a video media
item contributes at most one URL to the output. -/
theorem C10_urlless_variant_ignored :
    (∀ (xs ys : List (Option Variant)) (v : Variant), v.url = none →
      bestVariantUrl (xs ++ some v :: ys) = bestVariantUrl (xs ++ ys)) ∧
    (∀ (u : Option String) (vio : Option VideoInfo),
      (mediaItemUrls { type := some "video", media_url_https := u,
                       video_info := vio }).length ≤ 1) := by
  constructor
  · intro xs ys v h
    unfold bestVariantUrl
    rw [List.foldl_append, List.foldl_cons, variantStep_urlless v h,
      ← List.foldl_append]
  · intro u vio
    cases vio with
    | none =>
      have h : mediaItemUrls (MediaItem.mk (some "video") u none) = [] := rfl
      rw [h]
      simp
    | some vinfo =>
      have h : mediaItemUrls (MediaItem.mk (some "video") u (some vinfo)) =
          (match bestVariantUrl vinfo.variants with
           | some w => [w]
           | none => []) := rfl
      rw [h]
      cases hb : bestVariantUrl vinfo.variants with
      | none => simp
      | some w => simp

/-- Witness for C10: a url-less MP4 variant with the highest bitrate of
its list is not selected and does not disturb the selection. -/
theorem C10_urlless_variant_ignored_witness :
    bestVariantUrl
      ([some { content_type := some "video/mp4", bitrate := some (.parsed 100),
               url := some "low" }] ++
        some { content_type := some "video/mp4", bitrate := some (.parsed 999),
               url := none } ::
          [some { content_type := some "video/mp4", bitrate := some (.parsed 200),
                  url := some "high" }]) =
    bestVariantUrl
      ([some { content_type := some "video/mp4", bitrate := some (.parsed 100),
               url := some "low" }] ++
        [some { content_type := some "video/mp4", bitrate := some (.parsed 200),
                url := some "high" }]) :=
  C10_urlless_variant_ignored.1
    [some { content_type := some "video/mp4", bitrate := some (.parsed 100),
            url := some "low" }]
    [some { content_type := some "video/mp4", bitrate := some (.parsed 200),
            url := some "high" }]
    { content_type := some "video/mp4", bitrate := some (.parsed 999),
      url := none } rfl

end TwitterScraper
